import Mathlib

/-!
Verification development for the arweave-dumper repository.

The development shallowly embeds the decoding core of the repository:
byte streams are lists of byte values (Nat), fallible reads return an
Except value, and Rust panics (assert!, assert_eq!, debug_assert!) are
modelled as a dedicated error constructor flagged by isPanic, since a
panic aborts the process instead of returning an error value to the
caller.  External collaborators that are not part of this repository
(the sha256 digest from the arweave_rs crate and the Avro tag codec from
the apache_avro crate) are taken as function parameters.
-/

/-- Errors of the embedded decoders.  truncatedInput models an unexpected
end of input on a fixed-size read (tokio UnexpectedEof), ctx models the
anyhow context wrapping used throughout bundle.rs, ctxRow models the per
row context attached by the bundle stream, and panicAssert models a Rust
assertion failure (a process abort, not an error value that the Rust
caller could ever receive). -/
inductive DecodeErr where
  | truncatedInput : DecodeErr
  | unsupportedSignatureType : Nat → DecodeErr
  | avroError : DecodeErr
  | panicAssert : String → DecodeErr
  | ctx : String → DecodeErr → DecodeErr
  | ctxRow : Nat → Nat → Nat → DecodeErr → DecodeErr
  deriving DecidableEq, Repr

/-- A Rust panic is not an error value: it unwinds past every context
combinator.  isPanic identifies the modelled panics. -/
def DecodeErr.isPanic : DecodeErr → Bool
  | .panicAssert _ => true
  | .ctx _ e => e.isPanic
  | .ctxRow _ _ _ e => e.isPanic
  | _ => false

/-- Model of the anyhow context method: a genuine error value gets
wrapped with a label, while a modelled panic passes through unchanged
(context never touches a Rust panic). -/
def withCtx (label : String) : Except DecodeErr α → Except DecodeErr α
  | .ok a => .ok a
  | .error e => .error (if e.isPanic then e else .ctx label e)

/-- Sequencing of fallible reads, the question-mark operator of Rust. -/
def andThen (x : Except DecodeErr α) (f : α → Except DecodeErr β) : Except DecodeErr β :=
  match x with
  | .error e => .error e
  | .ok a => f a

/-- Little-endian read of n bytes, the tokio read_u16_le, read_u64_le and
read_u128_le helpers: fails with truncatedInput when fewer than n bytes
remain, otherwise returns the value together with the rest of the
stream. -/
def readLE : Nat → List Nat → Except DecodeErr (Nat × List Nat)
  | 0, bs => .ok (0, bs)
  | _ + 1, [] => .error .truncatedInput
  | n + 1, b :: bs =>
    match readLE n bs with
    | .error e => .error e
    | .ok (v, rest) => .ok (b + 256 * v, rest)

/-- Little-endian encoding of a value into n bytes. -/
def encodeLE : Nat → Nat → List Nat
  | 0, _ => []
  | n + 1, v => (v % 256) :: encodeLE n (v / 256)

/-- Model of read_exact into a buffer of size n: fails with
truncatedInput when fewer than n bytes remain. -/
def readExact (n : Nat) (bs : List Nat) : Except DecodeErr (List Nat × List Nat) :=
  if n ≤ bs.length then .ok (bs.take n, bs.drop n) else .error .truncatedInput

/-! ### Chunk reconstruction stream (src/arweave.rs, Client::transaction_data_chunk_stream)

The stream fetches chunks at increasing offsets.  The network collaborator
is modelled as the finite list of responses the successive fetch_chunk_data
calls would produce, each response either chunk bytes or an opaque
transport error (anyhow::Error, modelled as String).  The loop result is
none when the loop is still running after consuming every listed response
(it would perform yet another fetch), and otherwise the list of
(offset, bytes) descriptors yielded so far paired with an optional
terminating error. -/
def chunkLoop (endOffset : Nat) :
    List (Except String (List Nat)) → Nat → Option (List (Nat × List Nat) × Option String)
  | [], cursor => if cursor < endOffset then none else some ([], none)
  | r :: rest, cursor =>
    if cursor < endOffset then
      match r with
      | .error e => some ([], some e)
      | .ok data =>
        match chunkLoop endOffset rest (cursor + data.length) with
        | none => none
        | some (descs, term) => some ((cursor, data) :: descs, term)
    else some ([], none)

/-- Model of Client::transaction_data_chunk_stream: the cursor starts at
offset - size + 1 and the loop runs while cursor < offset, advancing the
cursor by the length of the bytes just fetched. -/
def transaction_data_chunk_stream (size offset : Nat)
    (responses : List (Except String (List Nat))) :
    Option (List (Nat × List Nat) × Option String) :=
  chunkLoop offset responses (offset - size + 1)

/-! ### Bundle decoding (src/bundle.rs)

The sha256 digest (arweave_rs crate) and the Avro tag codec
(apache_avro crate) are external collaborators of the repository and are
passed as the parameters hash and parseTagList. -/

/-- One name/value tag of a data item (src/avro.rs, struct BundleTag). -/
structure BundleTag where
  name : String
  value : String
  deriving DecidableEq, Repr

/-- One decoded signed record (src/bundle.rs, struct DataItem).  Byte
buffers (the Base64 wrapper of arweave_rs) are modelled as lists of
bytes. -/
structure DataItem where
  signature_name : String
  signature : List Nat
  bundle_id : List Nat
  owner_public_key : List Nat
  target : Option (List Nat)
  anchor : Option (List Nat)
  tags : List BundleTag
  data : List Nat
  deriving DecidableEq, Repr

/-- The fixed signature-variant table of read_data_item: variant tag to
(name, signature length, public key length); an unmapped tag has no
entry. -/
def sigTable (v : Nat) : Option (String × Nat × Nat) :=
  if v = 1 then some ("arweave", 512, 512)
  else if v = 2 then some ("ed25519", 64, 32)
  else if v = 3 then some ("ethereum", 65, 65)
  else if v = 4 then some ("solana", 64, 32)
  else none

/-- The early-return form of the variant-table match in read_data_item:
an unmapped signature-variant tag is the unsupported-signature error of
the source. -/
def sigTableE (v : Nat) : Except DecodeErr (String × Nat × Nat) :=
  match sigTable v with
  | some t => .ok t
  | none => .error (.unsupportedSignatureType v)

/-- Model of read_optional_field_as_base64: one flag byte, then 0 or
size bytes.  The source asserts is_present < 2 with assert!, a panic on
any flag byte outside 0 and 1. -/
def read_optional_field_as_base64 (size : Nat) (bs : List Nat) :
    Except DecodeErr (Option (List Nat) × List Nat) :=
  andThen (readLE 1 bs) fun (is_present, r1) =>
  if is_present < 2 then
    if is_present = 1 then
      andThen (readExact size r1) fun (buf, r2) => .ok (some buf, r2)
    else .ok (none, r1)
  else .error (.panicAssert "is_present < 2")

/-- The tag block of read_data_item: when the declared tag blob size is
positive, read exactly that many bytes and hand them to the external
Avro codec, otherwise the tag list is empty without consulting the
codec. -/
def readTags (parseTagList : List Nat → Except DecodeErr (List BundleTag))
    (tags_size : Nat) (r7 : List Nat) : Except DecodeErr (List BundleTag × List Nat) :=
  if 0 < tags_size then
    andThen (withCtx "tag data" (readExact tags_size r7)) fun (tag_data, r8) =>
    andThen (withCtx "Avro tags parse" (parseTagList tag_data)) fun tags =>
    .ok (tags, r8)
  else .ok ([], r7)

/-- Model of read_data_item, decoding one signed record from a bounded
reader (the byte list bs is exactly the bounded view handed to the item
decoder; read_to_end at the end consumes everything that remains in it).
hash models the sha256 digest and parseTagList the Avro tag codec, both
external crates.  The tag-count check of the source is assert_eq!, a
panic on mismatch. -/
def read_data_item (hash : List Nat → List Nat)
    (parseTagList : List Nat → Except DecodeErr (List BundleTag))
    (bs : List Nat) : Except DecodeErr (DataItem × List Nat) :=
  andThen (withCtx "signature type" (readLE 2 bs)) fun (signature_type, r1) =>
  andThen (sigTableE signature_type) fun (signature_name, sig_length, pub_key_length) =>
    andThen (withCtx "signature" (readExact sig_length r1)) fun (signature, r2) =>
    let bundle_id := hash signature
    andThen (withCtx "owner public key" (readExact pub_key_length r2)) fun (owner_public_key, r3) =>
    andThen (withCtx "target" (read_optional_field_as_base64 32 r3)) fun (target, r4) =>
    andThen (withCtx "anchor" (read_optional_field_as_base64 32 r4)) fun (anchor, r5) =>
    andThen (withCtx "tag count" (readLE 8 r5)) fun (tag_count, r6) =>
    andThen (withCtx "tags_size" (readLE 8 r6)) fun (tags_size, r7) =>
    andThen (readTags parseTagList tags_size r7) fun (tags, r8) =>
  if tag_count = tags.length then
    .ok ({ signature_name := signature_name, signature := signature,
           bundle_id := bundle_id, owner_public_key := owner_public_key,
           target := target, anchor := anchor, tags := tags, data := r8 }, [])
  else .error (.panicAssert "tag_count == tags.len()")

/-- Model of read_u256_as_u128: reads two 16-byte little-endian halves.
The source checks the upper half only with debug_assert!: when
debugAssertions is true (a debug build) a nonzero upper half panics, and
when it is false (a release build) the upper half is silently discarded
and the lower 128 bits are returned. -/
def read_u256_as_u128 (debugAssertions : Bool) (bs : List Nat) :
    Except DecodeErr (Nat × List Nat) :=
  andThen (readLE 16 bs) fun (num, r1) =>
  andThen (readLE 16 r1) fun (upper_half, r2) =>
  if debugAssertions ∧ upper_half ≠ 0 then .error (.panicAssert "upper_half == 0")
  else .ok (num, r2)

/-- Model of read_data_item_and_entry_id_table: total_items rows of
(declared length, 32-byte entry id). -/
def read_data_item_and_entry_id_table (debugAssertions : Bool) :
    Nat → List Nat → Except DecodeErr (List (Nat × List Nat) × List Nat)
  | 0, bs => .ok ([], bs)
  | n + 1, bs =>
    andThen (read_u256_as_u128 debugAssertions bs) fun (size, r1) =>
    andThen (readExact 32 r1) fun (entry_id, r2) =>
    andThen (read_data_item_and_entry_id_table debugAssertions n r2) fun (rest, r3) =>
    .ok ((size, entry_id) :: rest, r3)

/-- The row loop of ans104_bundle_data_item_stream: each row bounds the
shared reader to exactly its declared size (take), decodes one item, and
continues after that bound (drop); a row failure is attributed to the
row (index, total, declared size) and terminates the stream.  The result
is the list of items yielded before termination, together with the
optional terminating error, matching the lazy stream which yields items
one at a time until completion or first failure. -/
def streamRows (hash : List Nat → List Nat)
    (parseTagList : List Nat → Except DecodeErr (List BundleTag)) (total : Nat) :
    Nat → List (Nat × List Nat) → List Nat → List DataItem × Option DecodeErr
  | _, [], _ => ([], none)
  | idx, (data_item_size, _) :: rest, reader =>
    match read_data_item hash parseTagList (reader.take data_item_size) with
    | .error e =>
      ([], some (if e.isPanic then e else .ctxRow idx total data_item_size e))
    | .ok (data_item, _) =>
      let next := streamRows hash parseTagList total (idx + 1) rest (reader.drop data_item_size)
      (data_item :: next.1, next.2)

/-- Model of ans104_bundle_data_item_stream: read the 32-byte total item
count, read the whole index table, then decode the items row by row. -/
def ans104_bundle_data_item_stream (debugAssertions : Bool)
    (hash : List Nat → List Nat)
    (parseTagList : List Nat → Except DecodeErr (List BundleTag))
    (bs : List Nat) : List DataItem × Option DecodeErr :=
  match withCtx "total DataItems read" (read_u256_as_u128 debugAssertions bs) with
  | .error e => ([], some e)
  | .ok (total_items, r1) =>
    match withCtx "DataItems table read"
        (read_data_item_and_entry_id_table debugAssertions total_items r1) with
    | .error e => ([], some e)
    | .ok (data_items_table, r2) =>
      streamRows hash parseTagList data_items_table.length 0 data_items_table r2

/-! ### Incremental JSON array writer (src/async_json.rs)

The sink (AsyncWrite) is modelled as the accumulated list of written
characters, as in the in-memory Vec used by the test of the source file;
the serde_json pretty printer is the external parameter toJson. -/

/-- State of the incremental array writer: the internal reuse buffer,
the separator flag, and everything written to the sink so far. -/
structure ArrayWriter where
  buffer : List Char
  following_item : Bool
  out : List Char
  deriving DecidableEq, Repr

/-- ArrayWriter::new. -/
def ArrayWriter.new : ArrayWriter :=
  { buffer := [], following_item := false, out := [] }

/-- ArrayWriter::write_open_bracket. -/
def ArrayWriter.write_open_bracket (w : ArrayWriter) : ArrayWriter :=
  { w with out := w.out ++ "[\n".toList }

/-- ArrayWriter::write_close_bracket. -/
def ArrayWriter.write_close_bracket (w : ArrayWriter) : ArrayWriter :=
  { w with out := w.out ++ "\n]\n".toList }

/-- ArrayWriter::write_item: before every item except the first, write
a comma separator and clear the reuse buffer; then render the item into
the buffer and write the buffer to the sink. -/
def ArrayWriter.write_item (toJson : α → List Char) (w : ArrayWriter) (item : α) :
    ArrayWriter :=
  let w1 := if w.following_item then
              { w with out := w.out ++ ",\n".toList, buffer := [] }
            else
              { w with following_item := true }
  let w2 := { w1 with buffer := w1.buffer ++ toJson item }
  { w2 with out := w2.out ++ w2.buffer }

/-- The JSON texts of the items joined with a separator written between
consecutive elements, no separator before the first or after the last. -/
def interposed (sep : List Char) : List (List Char) → List Char
  | [] => []
  | [s] => s
  | s :: s2 :: rest => s ++ sep ++ interposed sep (s2 :: rest)

/-! ### Concrete collaborator instances used by closed statements -/

/-- A concrete digest instance (identity on the signature bytes), used to
instantiate the external hash parameter in closed statements. -/
def hashIdent : List Nat → List Nat := fun l => l

/-- A concrete tag-codec instance decoding every blob to an empty tag
list, used to instantiate the external codec parameter in closed
statements. -/
def noTagCodec : List Nat → Except DecodeErr (List BundleTag) := fun _ => .ok []

/-- The 32-byte wire encoding of a counter: 16 little-endian value bytes
followed by a zero upper half. -/
def encodeU256 (v : Nat) : List Nat := encodeLE 16 v ++ encodeLE 16 0

/-- Wire encoding of an optional 32-byte field: a presence flag byte 0
for an absent value, or flag byte 1 followed by the bytes. -/
def optWire : Option (List Nat) → List Nat
  | none => [0]
  | some b => 1 :: b

/-- Wire encoding of one index-table row: the 32-byte declared length
followed by the 32-byte entry identifier. -/
def encodeTableRow (r : Nat × List Nat) : List Nat := encodeU256 r.1 ++ r.2

/-- Closed-form bounded slices of the item section: slice i starts right
after the sum of the previous declared sizes and is bounded to exactly
the declared size of row i. -/
def slicesCF (sizes : List Nat) (body : List Nat) : List (List Nat) :=
  (List.range sizes.length).map
    (fun i => (body.drop ((sizes.take i).sum)).take (sizes.getD i 0))

/-- Row decoding driven directly by precomputed (declared size, slice)
pairs, each row decoded from its own slice independently of every other
row; used to state how the stream bounds and sequences the row
decodes. -/
def runSlices (hash : List Nat → List Nat)
    (parseTagList : List Nat → Except DecodeErr (List BundleTag)) (total : Nat) :
    Nat → List (Nat × List Nat) → List DataItem × Option DecodeErr
  | _, [] => ([], none)
  | idx, (size, slice) :: rest =>
    match read_data_item hash parseTagList slice with
    | .error e => ([], some (if e.isPanic then e else .ctxRow idx total size e))
    | .ok (item, _) =>
      let next := runSlices hash parseTagList total (idx + 1) rest
      (item :: next.1, next.2)

/-- Sum of the declared sizes of an index table. -/
def totalSizes (table : List (Nat × List Nat)) : Nat := (table.map Prod.fst).sum

/-- Concrete item bytes used to witness the digest claim: an ethereum
variant item with no optional fields, no tags and empty payload. -/
def wit9bytes : List Nat :=
  3 :: 0 :: (List.replicate 65 8 ++ (List.replicate 65 9 ++
    (0 :: 0 :: (encodeLE 8 0 ++ encodeLE 8 0))))

/-- The item decoded from wit9bytes under the identity digest. -/
def wit9item : DataItem :=
  { signature_name := "ethereum", signature := List.replicate 65 8,
    bundle_id := List.replicate 65 8, owner_public_key := List.replicate 65 9,
    target := none, anchor := none, tags := [], data := [] }

/-- Concrete truncated bundle: one row declaring 117 bytes while the
item section only provides the 116 bytes of a payload-free ed25519 item,
so the underlying input ends one byte before the declared extent of the
last (and only) row. -/
def c3exInput : List Nat :=
  encodeU256 1 ++ (encodeU256 117 ++ List.replicate 32 0) ++
    ([2, 0] ++ List.replicate 64 7 ++ List.replicate 32 9 ++ [0, 0] ++
      encodeLE 8 0 ++ encodeLE 8 0)

/-- The item the truncated bundle c3exInput decodes to: its payload is
empty although the declared row length implied one payload byte. -/
def c3exItem : DataItem :=
  { signature_name := "ed25519", signature := List.replicate 64 7,
    bundle_id := List.replicate 64 7, owner_public_key := List.replicate 32 9,
    target := none, anchor := none, tags := [], data := [] }

/-! ### Supporting lemmas about the reader primitives -/

@[simp] theorem withCtx_ok (label : String) (a : α) :
    withCtx label (Except.ok a) = Except.ok a := rfl

@[simp] theorem withCtx_error {α : Type} (label : String) (e : DecodeErr) :
    (withCtx label (Except.error e) : Except DecodeErr α) =
      Except.error (if e.isPanic then e else .ctx label e) := rfl

@[simp] theorem andThen_ok (a : α) (f : α → Except DecodeErr β) :
    andThen (Except.ok a) f = f a := rfl

@[simp] theorem andThen_error (e : DecodeErr) (f : α → Except DecodeErr β) :
    andThen (Except.error e) f = Except.error e := rfl

theorem withCtx_eq_ok (label : String) (x : Except DecodeErr α) (a : α) :
    withCtx label x = Except.ok a ↔ x = Except.ok a := by
  cases x <;> simp [withCtx]

@[simp] theorem encodeLE_length (n v : Nat) : (encodeLE n v).length = n := by
  induction n generalizing v with
  | zero => rfl
  | succ n ih => simp [encodeLE, ih]

theorem readLE_encodeLE (n v : Nat) (rest : List Nat) (h : v < 256 ^ n) :
    readLE n (encodeLE n v ++ rest) = .ok (v, rest) := by
  induction n generalizing v with
  | zero =>
    interval_cases v
    rfl
  | succ n ih =>
    have hdiv : v / 256 < 256 ^ n := by
      rw [Nat.div_lt_iff_lt_mul (by norm_num)]
      calc v < 256 ^ (n + 1) := h
        _ = 256 ^ n * 256 := by ring
    simp [encodeLE, readLE, ih (v / 256) hdiv, Nat.mod_add_div]

theorem readExact_append (xs rest : List Nat) :
    readExact xs.length (xs ++ rest) = .ok (xs, rest) := by
  simp [readExact]

theorem readExact_of_length (n : Nat) (xs rest : List Nat) (h : xs.length = n) :
    readExact n (xs ++ rest) = .ok (xs, rest) := by
  rw [← h]
  exact readExact_append xs rest

theorem readExact_ok_length {n : Nat} {bs buf rest : List Nat}
    (h : readExact n bs = .ok (buf, rest)) : buf.length = n := by
  unfold readExact at h
  split at h
  · rename_i hle
    simp only [Except.ok.injEq, Prod.mk.injEq] at h
    rw [← h.1]
    simp [Nat.min_eq_left hle]
  · simp at h

/-! ### Claim C1 -/

/-- C1: the claim states that whenever the fetched chunk lengths sum
exactly to the transaction size, the stream yields every fetched chunk
and its concatenation has exactly size bytes.  The code violates this:
with size 1, end offset 5 and the single 1-byte chunk [42] (lengths sum
exactly to the size) the cursor starts at 5 - 1 + 1 = 5, the strict loop
condition cursor < end_offset is immediately false, and the stream
completes yielding nothing; with size 2 and two 1-byte chunks the final
chunk is likewise skipped and only one byte is yielded.  The strict
bound drops a final chunk of length 1 (the goar reference loops while
the received length is below size instead). -/
theorem c1_code_eval :
    transaction_data_chunk_stream 1 5 [Except.ok [42]] = some ([], none) ∧
    transaction_data_chunk_stream 2 5 [Except.ok [42], Except.ok [43]] =
      some ([(4, [42])], none) := by
  exact ⟨rfl, rfl⟩

/-! ### Claim C2 -/

/-- C2: the claim states that a nonzero upper 128 bits of a 32-byte
counter makes the decode fail with a dedicated size-overflow error
rather than panicking or silently truncating.  The code violates this:
on the counter whose lower half encodes 7 and whose upper half encodes
1, a release build (debug assertions off) silently returns the truncated
lower half 7 with no error at all, and a debug build panics via
debug_assert!; no size-overflow error value exists anywhere in the
code. -/
theorem c2_code_eval :
    read_u256_as_u128 false (encodeLE 16 7 ++ encodeLE 16 1) = .ok (7, []) ∧
    read_u256_as_u128 true (encodeLE 16 7 ++ encodeLE 16 1) =
      .error (.panicAssert "upper_half == 0") := by
  exact ⟨rfl, rfl⟩

/-! ### Claim C5 -/

/-- C5: the claim states that a zero-length fetched chunk terminates the
stream with a fatal protocol-violation error instead of looping forever.
The code has no such check: a zero-length chunk leaves the cursor
unchanged and the same offset is fetched again, so for a transaction of
size 2 ending at offset 9 no finite number n of zero-length fetch
responses ever completes the stream - after consuming all n responses
the loop is still running (result none), which is the model of the
infinite loop. -/
theorem c5_code_eval :
    ∀ n : Nat,
      transaction_data_chunk_stream 2 9 (List.replicate n (Except.ok [])) = none := by
  have h : ∀ n : Nat,
      chunkLoop 9 (List.replicate n (Except.ok ([] : List Nat))) 8 = none := by
    intro n
    induction n with
    | zero => rfl
    | succ n ih => simp [List.replicate_succ, chunkLoop, ih]
  intro n
  exact h n

/-! ### Claim C10 -/

theorem write_item_foldl {α : Type} (toJson : α → List Char) (items : List α)
    (w : ArrayWriter) (hw : w.following_item = true) :
    (items.foldl (ArrayWriter.write_item toJson) w).out =
        w.out ++ (items.map (fun i => ",\n".toList ++ toJson i)).flatten ∧
      (items.foldl (ArrayWriter.write_item toJson) w).following_item = true := by
  induction items generalizing w with
  | nil => exact ⟨by simp, hw⟩
  | cons i rest ih =>
    simp only [List.foldl_cons]
    have hw' : (ArrayWriter.write_item toJson w i).following_item = true := by
      simp [ArrayWriter.write_item, hw]
    obtain ⟨h1, h2⟩ := ih (ArrayWriter.write_item toJson w i) hw'
    refine ⟨?_, h2⟩
    rw [h1]
    simp [ArrayWriter.write_item, hw, List.append_assoc]

theorem interposed_cons (sep s : List Char) (rest : List (List Char)) :
    interposed sep (s :: rest) = s ++ (rest.map (fun t => sep ++ t)).flatten := by
  induction rest generalizing s with
  | nil => simp [interposed]
  | cons t ts ih => simp [interposed, ih, List.append_assoc]

/-- C10: for every n and every sequence of n serializable items, the
call sequence write_open_bracket, write_item for each item in order,
write_close_bracket emits exactly the opening bracket line, the rendered
JSON of each item with a comma separator written between consecutive
items only, and the closing bracket line - a well-formed JSON array even
for n = 0 (where the output is the bracket lines alone). -/
theorem c10_array_writer_format {α : Type} (toJson : α → List Char) (items : List α) :
    ((items.foldl (ArrayWriter.write_item toJson)
        (ArrayWriter.new.write_open_bracket)).write_close_bracket).out =
      "[\n".toList ++ interposed ",\n".toList (items.map toJson) ++ "\n]\n".toList := by
  cases items with
  | nil =>
    simp [ArrayWriter.new, ArrayWriter.write_open_bracket,
      ArrayWriter.write_close_bracket, interposed]
  | cons i rest =>
    simp only [List.foldl_cons]
    have hfirst : (ArrayWriter.write_item toJson
        (ArrayWriter.new.write_open_bracket) i).following_item = true := by
      simp [ArrayWriter.write_item, ArrayWriter.new, ArrayWriter.write_open_bracket]
    obtain ⟨h1, _⟩ := write_item_foldl toJson rest
      (ArrayWriter.write_item toJson (ArrayWriter.new.write_open_bracket) i) hfirst
    simp only [ArrayWriter.write_close_bracket, h1, List.map_cons, interposed_cons]
    simp [ArrayWriter.write_item, ArrayWriter.new, ArrayWriter.write_open_bracket,
      List.append_assoc, List.map_map, Function.comp_def]

/-! ### Supporting lemmas about the item decoder -/

theorem andThen_eq_ok {α β : Type} {x : Except DecodeErr α} {f : α → Except DecodeErr β}
    {b : β} (h : andThen x f = .ok b) : ∃ a, x = .ok a ∧ f a = .ok b := by
  cases x with
  | error e => simp [andThen] at h
  | ok a => exact ⟨a, rfl, h⟩

theorem readLE_two (b0 b1 : Nat) (rest : List Nat) :
    readLE 2 (b0 :: b1 :: rest) = .ok (b0 + 256 * b1, rest) := by
  simp [readLE]

theorem sigTableE_some {v : Nat} {t : String × Nat × Nat} (h : sigTable v = some t) :
    sigTableE v = .ok t := by
  simp [sigTableE, h]

theorem sigTableE_eq_ok {v : Nat} {t : String × Nat × Nat} (h : sigTableE v = .ok t) :
    sigTable v = some t := by
  rcases hs : sigTable v with _ | t'
  · simp [sigTableE, hs] at h
  · simp only [sigTableE, hs] at h
    injection h with h
    subst h
    rfl

theorem read_optional_none (size : Nat) (rest : List Nat) :
    read_optional_field_as_base64 size (0 :: rest) = .ok (none, rest) := by
  simp [read_optional_field_as_base64, readLE, andThen]

theorem read_optional_some (size : Nat) (b rest : List Nat) (hb : b.length = size) :
    read_optional_field_as_base64 size (1 :: (b ++ rest)) = .ok (some b, rest) := by
  have h1 : readLE 1 (1 :: (b ++ rest)) = .ok (1, b ++ rest) := by simp [readLE]
  simp [read_optional_field_as_base64, h1, ← hb, readExact_append]

theorem read_optional_panic (size b : Nat) (rest : List Nat) (hb : 2 ≤ b) :
    read_optional_field_as_base64 size (b :: rest) =
      .error (.panicAssert "is_present < 2") := by
  have h1 : readLE 1 (b :: rest) = .ok (b, rest) := by simp [readLE]
  have h2 : ¬ b < 2 := by omega
  simp [read_optional_field_as_base64, h1, h2]

theorem read_optional_optWire (size : Nat) (val : Option (List Nat)) (rest : List Nat)
    (hval : ∀ b, val = some b → b.length = size) :
    read_optional_field_as_base64 size (optWire val ++ rest) = .ok (val, rest) := by
  cases val with
  | none => simpa [optWire] using read_optional_none size rest
  | some b =>
    have hb := hval b rfl
    simpa [optWire] using read_optional_some size b rest hb

theorem readTags_append (pt : List Nat → Except DecodeErr (List BundleTag))
    (tagBlob payload : List Nat) (tags : List BundleTag)
    (h0 : tagBlob = [] → tags = [])
    (h1 : tagBlob ≠ [] → pt tagBlob = .ok tags) :
    readTags pt tagBlob.length (tagBlob ++ payload) = .ok (tags, payload) := by
  by_cases hb : tagBlob = []
  · subst hb
    simp [readTags, h0 rfl]
  · have hl : 0 < tagBlob.length := List.length_pos.mpr hb
    simp [readTags, hl, readExact_append, h1 hb]

/-- Full characterization of a decode of one item laid out as on the
wire: the variant tag, the two fixed-length buffers, the two optional
fields, the tag counters, the tag blob, and the trailing payload.  The
decode succeeds exactly when the declared tag count matches the decoded
tag list length, and panics via assert_eq! otherwise. -/
theorem read_data_item_wire (hash : List Nat → List Nat)
    (pt : List Nat → Except DecodeErr (List BundleTag))
    (v : Nat) (name : String) (sl pl : Nat)
    (hv : sigTable v = some (name, sl, pl)) (hvle : v < 256 ^ 2)
    (sig pk tagBlob payload : List Nat)
    (target anchor : Option (List Nat)) (tags : List BundleTag) (tagCount : Nat)
    (hsig : sig.length = sl) (hpk : pk.length = pl)
    (ht : ∀ b, target = some b → b.length = 32)
    (ha : ∀ b, anchor = some b → b.length = 32)
    (hcnt : tagCount < 256 ^ 8) (hblen : tagBlob.length < 256 ^ 8)
    (h0 : tagBlob = [] → tags = [])
    (h1 : tagBlob ≠ [] → pt tagBlob = .ok tags) :
    read_data_item hash pt (encodeLE 2 v ++ (sig ++ (pk ++ (optWire target ++ (optWire anchor ++
        (encodeLE 8 tagCount ++ (encodeLE 8 tagBlob.length ++ (tagBlob ++ payload)))))))) =
      if tagCount = tags.length then
        .ok ({ signature_name := name, signature := sig, bundle_id := hash sig,
               owner_public_key := pk, target := target, anchor := anchor,
               tags := tags, data := payload }, [])
      else .error (.panicAssert "tag_count == tags.len()") := by
  unfold read_data_item
  rw [readLE_encodeLE 2 v _ hvle]
  simp only [withCtx_ok, andThen_ok, sigTableE_some hv]
  rw [readExact_of_length sl sig _ hsig]
  simp only [withCtx_ok, andThen_ok]
  rw [readExact_of_length pl pk _ hpk]
  simp only [withCtx_ok, andThen_ok]
  rw [read_optional_optWire 32 target _ ht]
  simp only [withCtx_ok, andThen_ok]
  rw [read_optional_optWire 32 anchor _ ha]
  simp only [withCtx_ok, andThen_ok]
  rw [readLE_encodeLE 8 tagCount _ hcnt]
  simp only [withCtx_ok, andThen_ok]
  rw [readLE_encodeLE 8 tagBlob.length _ hblen]
  simp only [withCtx_ok, andThen_ok]
  rw [readTags_append pt tagBlob payload tags h0 h1]
  simp only [andThen_ok]

/-- Inversion of a successful item decode: the stream starts with a
variant tag mapped by the fixed table, the decoded buffer lengths are
exactly the table lengths, the derived identifier is the digest of the
signature bytes, and the bounded reader is fully consumed. -/
theorem read_data_item_ok_inv {hash : List Nat → List Nat}
    {pt : List Nat → Except DecodeErr (List BundleTag)}
    {bs : List Nat} {item : DataItem} {rem : List Nat}
    (h : read_data_item hash pt bs = .ok (item, rem)) :
    ∃ v r1 name sl pl, readLE 2 bs = Except.ok (v, r1) ∧
      sigTable v = some (name, sl, pl) ∧
      item.signature_name = name ∧ item.signature.length = sl ∧
      item.owner_public_key.length = pl ∧
      item.bundle_id = hash item.signature ∧ rem = [] := by
  unfold read_data_item at h
  obtain ⟨⟨v, r1⟩, h1, h⟩ := andThen_eq_ok h
  rw [withCtx_eq_ok] at h1
  obtain ⟨⟨name, sl, pl⟩, h2, h⟩ := andThen_eq_ok h
  replace h2 := sigTableE_eq_ok h2
  obtain ⟨⟨sig, r2⟩, h3, h⟩ := andThen_eq_ok h
  rw [withCtx_eq_ok] at h3
  obtain ⟨⟨pk, r3⟩, h4, h⟩ := andThen_eq_ok h
  rw [withCtx_eq_ok] at h4
  obtain ⟨⟨tgt, r4⟩, h5, h⟩ := andThen_eq_ok h
  obtain ⟨⟨anc, r5⟩, h6, h⟩ := andThen_eq_ok h
  obtain ⟨⟨tc, r6⟩, h7, h⟩ := andThen_eq_ok h
  obtain ⟨⟨ts, r7⟩, h8, h⟩ := andThen_eq_ok h
  obtain ⟨⟨tags, r8⟩, h9, h⟩ := andThen_eq_ok h
  split at h
  split at h
  · simp only [Except.ok.injEq, Prod.mk.injEq] at h
    obtain ⟨hitem, hrem⟩ := h
    refine ⟨v, r1, name, sl, pl, h1, h2, ?_, ?_, ?_, ?_, hrem.symm⟩
    · rw [← hitem]
    · rw [← hitem]
      exact readExact_ok_length h3
    · rw [← hitem]
      exact readExact_ok_length h4
    · rw [← hitem]
  · exact absurd h (by simp)

/-- An unmapped variant tag makes the item decode fail with the
unsupported-signature error carrying the decoded tag value. -/
theorem read_data_item_unsupported (hash : List Nat → List Nat)
    (pt : List Nat → Except DecodeErr (List BundleTag)) (b0 b1 : Nat) (rest : List Nat)
    (h : sigTable (b0 + 256 * b1) = none) :
    read_data_item hash pt (b0 :: b1 :: rest) =
      .error (.unsupportedSignatureType (b0 + 256 * b1)) := by
  unfold read_data_item
  rw [readLE_two]
  simp [sigTableE, h, andThen]

/-! ### Claim C9 -/

/-- C9: for every successfully decoded item, of any signature variant,
the derived content identifier bundle_id equals the digest of exactly
the signature bytes (the digest collaborator is the hash parameter,
sha256 from the arweave_rs crate in the program), computed from the
signature alone, before and independently of every later field. -/
theorem c9_bundle_id_digest (hash : List Nat → List Nat)
    (pt : List Nat → Except DecodeErr (List BundleTag))
    (bs : List Nat) (item : DataItem) (rem : List Nat)
    (h : read_data_item hash pt bs = .ok (item, rem)) :
    item.bundle_id = hash item.signature := by
  obtain ⟨_, _, _, _, _, _, _, _, _, _, hbid, _⟩ := read_data_item_ok_inv h
  exact hbid

set_option maxRecDepth 10000 in
/-- Witness for C9 at a concrete decoded item. -/
theorem c9_witness : wit9item.bundle_id = hashIdent wit9item.signature :=
  c9_bundle_id_digest hashIdent noTagCodec wit9bytes wit9item [] (by rfl)

/-! ### Claim C7 -/

/-- C7: for every item whose 2-byte little-endian signature-variant tag
decodes to a value in 1..4, a successful decode has signature and owner
public key of exactly the lengths of the fixed variant table
(512/512, 64/32, 65/65, 64/32); every tag value outside 1..4 makes the
decode fail with the unsupported-signature-variant error carrying that
value. -/
theorem c7_signature_variant_table (hash : List Nat → List Nat)
    (pt : List Nat → Except DecodeErr (List BundleTag))
    (b0 b1 : Nat) (rest : List Nat) :
    (∀ item rem, read_data_item hash pt (b0 :: b1 :: rest) = .ok (item, rem) →
        (b0 + 256 * b1 = 1 ∧ item.signature.length = 512 ∧
          item.owner_public_key.length = 512) ∨
        (b0 + 256 * b1 = 2 ∧ item.signature.length = 64 ∧
          item.owner_public_key.length = 32) ∨
        (b0 + 256 * b1 = 3 ∧ item.signature.length = 65 ∧
          item.owner_public_key.length = 65) ∨
        (b0 + 256 * b1 = 4 ∧ item.signature.length = 64 ∧
          item.owner_public_key.length = 32)) ∧
    (b0 + 256 * b1 ≠ 1 → b0 + 256 * b1 ≠ 2 → b0 + 256 * b1 ≠ 3 → b0 + 256 * b1 ≠ 4 →
      read_data_item hash pt (b0 :: b1 :: rest) =
        .error (.unsupportedSignatureType (b0 + 256 * b1))) := by
  constructor
  · intro item rem h
    obtain ⟨v, r1, name, sl, pl, hle, hst, _, hsl, hpl, _, _⟩ := read_data_item_ok_inv h
    rw [readLE_two] at hle
    injection hle with hle
    injection hle with hv hr
    subst hv
    unfold sigTable at hst
    split_ifs at hst with hv1 hv2 hv3 hv4
    · simp only [Option.some.injEq, Prod.mk.injEq] at hst
      exact Or.inl ⟨hv1, by rw [hsl, ← hst.2.1], by rw [hpl, ← hst.2.2]⟩
    · simp only [Option.some.injEq, Prod.mk.injEq] at hst
      exact Or.inr (Or.inl ⟨hv2, by rw [hsl, ← hst.2.1], by rw [hpl, ← hst.2.2]⟩)
    · simp only [Option.some.injEq, Prod.mk.injEq] at hst
      exact Or.inr (Or.inr (Or.inl ⟨hv3, by rw [hsl, ← hst.2.1], by rw [hpl, ← hst.2.2]⟩))
    · simp only [Option.some.injEq, Prod.mk.injEq] at hst
      exact Or.inr (Or.inr (Or.inr ⟨hv4, by rw [hsl, ← hst.2.1], by rw [hpl, ← hst.2.2]⟩))
  · intro h1 h2 h3 h4
    exact read_data_item_unsupported hash pt b0 b1 rest (by simp [sigTable, h1, h2, h3, h4])

/-- Witness for C7 at the concrete unmapped variant tag 5. -/
theorem c7_witness :
    read_data_item hashIdent noTagCodec [5, 0] =
      .error (.unsupportedSignatureType (5 + 256 * 0)) :=
  (c7_signature_variant_table hashIdent noTagCodec 5 0 []).2
    (by decide) (by decide) (by decide) (by decide)

/-! ### Claim C6 -/

/-- C6 as amended: a target or anchor presence-flag byte outside 0 and 1
makes the item decode abort with the assertion panic of assert! (a
process abort, modelled as the panicAssert error), not with a
malformed-input error value returned to the caller; a flag of 0 yields
an absent field and a flag of 1 yields a 32-byte field, the whole item
then decoding successfully. -/
theorem c6_presence_flag (hash : List Nat → List Nat)
    (pt : List Nat → Except DecodeErr (List BundleTag))
    (sig pk tb payload : List Nat) (b : Nat)
    (hsig : sig.length = 64) (hpk : pk.length = 32) (htb : tb.length = 32)
    (hb : 2 ≤ b) :
    (∀ rest, read_data_item hash pt (encodeLE 2 2 ++ (sig ++ (pk ++ (b :: rest)))) =
        .error (.panicAssert "is_present < 2")) ∧
    (∀ rest, read_data_item hash pt
          (encodeLE 2 2 ++ (sig ++ (pk ++ (0 :: (b :: rest))))) =
        .error (.panicAssert "is_present < 2")) ∧
    read_data_item hash pt (encodeLE 2 2 ++ (sig ++ (pk ++ (0 :: (0 ::
        (encodeLE 8 0 ++ (encodeLE 8 0 ++ payload))))))) =
      .ok ({ signature_name := "ed25519", signature := sig, bundle_id := hash sig,
             owner_public_key := pk, target := none, anchor := none,
             tags := [], data := payload }, []) ∧
    read_data_item hash pt (encodeLE 2 2 ++ (sig ++ (pk ++ (1 :: (tb ++ (0 ::
        (encodeLE 8 0 ++ (encodeLE 8 0 ++ payload)))))))) =
      .ok ({ signature_name := "ed25519", signature := sig, bundle_id := hash sig,
             owner_public_key := pk, target := some tb, anchor := none,
             tags := [], data := payload }, []) := by
  have hv : sigTable 2 = some ("ed25519", 64, 32) := rfl
  refine ⟨?_, ?_, ?_, ?_⟩
  · intro rest
    unfold read_data_item
    rw [readLE_encodeLE 2 2 _ (by norm_num)]
    simp only [withCtx_ok, andThen_ok, sigTableE_some hv]
    rw [readExact_of_length 64 sig _ hsig]
    simp only [withCtx_ok, andThen_ok]
    rw [readExact_of_length 32 pk _ hpk]
    simp only [withCtx_ok, andThen_ok]
    rw [read_optional_panic 32 b rest hb]
    simp [DecodeErr.isPanic]
  · intro rest
    unfold read_data_item
    rw [readLE_encodeLE 2 2 _ (by norm_num)]
    simp only [withCtx_ok, andThen_ok, sigTableE_some hv]
    rw [readExact_of_length 64 sig _ hsig]
    simp only [withCtx_ok, andThen_ok]
    rw [readExact_of_length 32 pk _ hpk]
    simp only [withCtx_ok, andThen_ok]
    rw [read_optional_none]
    simp only [withCtx_ok, andThen_ok]
    rw [read_optional_panic 32 b rest hb]
    simp [DecodeErr.isPanic]
  · have hw := read_data_item_wire hash pt 2 "ed25519" 64 32 hv (by norm_num)
      sig pk [] payload none none [] 0 hsig hpk
      (by intro x hx; cases hx) (by intro x hx; cases hx)
      (by norm_num) (by norm_num) (fun _ => rfl) (fun hh => absurd rfl hh)
    simpa [optWire] using hw
  · have hw := read_data_item_wire hash pt 2 "ed25519" 64 32 hv (by norm_num)
      sig pk [] payload (some tb) none [] 0 hsig hpk
      (by intro x hx; cases hx; exact htb) (by intro x hx; cases hx)
      (by norm_num) (by norm_num) (fun _ => rfl) (fun hh => absurd rfl hh)
    simpa [optWire] using hw

/-- Counterexample for C6 as stated: on an otherwise-valid item whose
target presence flag byte is 2, the decode result is the modelled
assert! panic, a process abort, not a malformed-input error value
returned to the caller. -/
theorem c6_counterexample :
    read_data_item hashIdent noTagCodec
        ([2, 0] ++ List.replicate 64 7 ++ List.replicate 32 9 ++ [2]) =
      .error (.panicAssert "is_present < 2") ∧
    DecodeErr.isPanic (.panicAssert "is_present < 2") = true :=
  ⟨rfl, rfl⟩

/-- Witness for C6 at concrete inputs (flag byte 5). -/
theorem c6_witness :
    read_data_item hashIdent noTagCodec
        (encodeLE 2 2 ++ (List.replicate 64 3 ++ (List.replicate 32 4 ++ (5 :: [])))) =
      .error (.panicAssert "is_present < 2") :=
  ((c6_presence_flag hashIdent noTagCodec (List.replicate 64 3) (List.replicate 32 4)
      (List.replicate 32 6) [] 5 (by simp) (by simp) (by simp) (by norm_num)).1) []

/-! ### Claim C4 -/

/-- C4 as amended: a successful item decode guarantees that the decoded
tag list length equals the declared 8-byte tag count (the assertion
passed); a mismatch makes the decoder abort with the assertion panic of
assert_eq! (modelled as the panicAssert error), a process abort rather
than a malformed-input error value returned to the caller, so a
mismatch is never silently accepted. -/
theorem c4_tag_count (hash : List Nat → List Nat)
    (pt : List Nat → Except DecodeErr (List BundleTag))
    (sig pk tagBlob payload : List Nat) (tags : List BundleTag) (tagCount : Nat)
    (hsig : sig.length = 512) (hpk : pk.length = 512)
    (hcnt : tagCount < 256 ^ 8) (hblen : tagBlob.length < 256 ^ 8)
    (h0 : tagBlob = [] → tags = []) (h1 : tagBlob ≠ [] → pt tagBlob = .ok tags) :
    (tagCount = tags.length →
      read_data_item hash pt (encodeLE 2 1 ++ (sig ++ (pk ++ (0 :: (0 ::
          (encodeLE 8 tagCount ++ (encodeLE 8 tagBlob.length ++ (tagBlob ++ payload)))))))) =
        .ok ({ signature_name := "arweave", signature := sig, bundle_id := hash sig,
               owner_public_key := pk, target := none, anchor := none,
               tags := tags, data := payload }, [])) ∧
    (tagCount ≠ tags.length →
      read_data_item hash pt (encodeLE 2 1 ++ (sig ++ (pk ++ (0 :: (0 ::
          (encodeLE 8 tagCount ++ (encodeLE 8 tagBlob.length ++ (tagBlob ++ payload)))))))) =
        .error (.panicAssert "tag_count == tags.len()")) := by
  have hw := read_data_item_wire hash pt 1 "arweave" 512 512 rfl (by norm_num)
    sig pk tagBlob payload none none tags tagCount hsig hpk
    (by intro x hx; cases hx) (by intro x hx; cases hx) hcnt hblen h0 h1
  constructor
  · intro hc
    rw [if_pos hc] at hw
    simpa [optWire] using hw
  · intro hc
    rw [if_neg hc] at hw
    simpa [optWire] using hw

/-- Counterexample for C4 as stated: an item declaring 3 tags whose tag
blob is empty (so the decoded tag list is empty) makes the decode abort
with the modelled assert_eq! panic, a process abort, not a
malformed-input error value returned to the caller. -/
theorem c4_counterexample :
    read_data_item hashIdent noTagCodec
        ([2, 0] ++ List.replicate 64 7 ++ List.replicate 32 9 ++ [0, 0] ++
          encodeLE 8 3 ++ encodeLE 8 0) =
      .error (.panicAssert "tag_count == tags.len()") ∧
    DecodeErr.isPanic (.panicAssert "tag_count == tags.len()") = true :=
  ⟨rfl, rfl⟩

/-- Witness for C4 at a concrete matching item. -/
theorem c4_witness :
    read_data_item hashIdent noTagCodec (encodeLE 2 1 ++ (List.replicate 512 1 ++
        (List.replicate 512 2 ++ (0 :: (0 :: (encodeLE 8 0 ++ (encodeLE 8 0 ++ [7]))))))) =
      .ok ({ signature_name := "arweave", signature := List.replicate 512 1,
             bundle_id := hashIdent (List.replicate 512 1),
             owner_public_key := List.replicate 512 2, target := none, anchor := none,
             tags := [], data := [7] }, []) :=
  (c4_tag_count hashIdent noTagCodec (List.replicate 512 1) (List.replicate 512 2) [] [7]
      [] 0 (by rw [List.length_replicate]) (by rw [List.length_replicate]) (by norm_num)
      (by norm_num) (fun _ => rfl) (fun hh => absurd rfl hh)).1 rfl

theorem totalSizes_nil : totalSizes [] = 0 := rfl

theorem totalSizes_cons (s0 : Nat) (e0 : List Nat) (rest : List (Nat × List Nat)) :
    totalSizes ((s0, e0) :: rest) = s0 + totalSizes rest := by
  simp [totalSizes]

theorem read_u256_encodeU256 (dbg : Bool) (v : Nat) (rest : List Nat) (h : v < 256 ^ 16) :
    read_u256_as_u128 dbg (encodeU256 v ++ rest) = .ok (v, rest) := by
  unfold read_u256_as_u128 encodeU256
  rw [List.append_assoc, readLE_encodeLE 16 v _ h]
  simp only [andThen_ok]
  rw [readLE_encodeLE 16 0 _ (by norm_num)]
  simp [andThen]

theorem table_roundtrip (dbg : Bool) (table : List (Nat × List Nat)) (body : List Nat)
    (hsz : ∀ r ∈ table, r.1 < 256 ^ 16 ∧ r.2.length = 32) :
    read_data_item_and_entry_id_table dbg table.length
        ((table.map encodeTableRow).flatten ++ body) = .ok (table, body) := by
  induction table with
  | nil => simp [read_data_item_and_entry_id_table]
  | cons r rs ih =>
    obtain ⟨hr1, hr2⟩ := hsz r (by simp)
    simp only [List.map_cons, List.flatten_cons, List.length_cons]
    rw [List.append_assoc]
    have hrow : encodeTableRow r ++ ((List.map encodeTableRow rs).flatten ++ body) =
        encodeU256 r.1 ++ (r.2 ++ ((List.map encodeTableRow rs).flatten ++ body)) := by
      simp [encodeTableRow, List.append_assoc]
    rw [hrow]
    unfold read_data_item_and_entry_id_table
    rw [read_u256_encodeU256 dbg r.1 _ hr1]
    simp only [andThen_ok]
    rw [readExact_of_length 32 r.2 _ hr2]
    simp only [andThen_ok]
    rw [ih (fun x hx => hsz x (by simp [hx]))]
    simp only [andThen_ok]

theorem slicesCF_nil (body : List Nat) : slicesCF [] body = [] := by
  simp [slicesCF]

theorem slicesCF_cons (s : Nat) (sizes : List Nat) (body : List Nat) :
    slicesCF (s :: sizes) body = body.take s :: slicesCF sizes (body.drop s) := by
  unfold slicesCF
  simp only [List.length_cons]
  rw [List.range_succ_eq_map]
  simp only [List.map_cons, List.map_map]
  congr 1
  apply List.map_congr_left
  intro i hi
  simp only [Function.comp_apply, List.take_succ_cons, List.sum_cons,
    List.getD_cons_succ, List.drop_drop]

theorem streamRows_cons (hash : List Nat → List Nat)
    (pt : List Nat → Except DecodeErr (List BundleTag)) (total idx s : Nat)
    (eid : List Nat) (rest : List (Nat × List Nat)) (reader : List Nat) :
    streamRows hash pt total idx ((s, eid) :: rest) reader =
      match read_data_item hash pt (reader.take s) with
      | .error e => ([], some (if e.isPanic then e else .ctxRow idx total s e))
      | .ok (item, _) =>
        (item :: (streamRows hash pt total (idx + 1) rest (reader.drop s)).1,
          (streamRows hash pt total (idx + 1) rest (reader.drop s)).2) := rfl

theorem runSlices_cons (hash : List Nat → List Nat)
    (pt : List Nat → Except DecodeErr (List BundleTag)) (total idx s : Nat)
    (slice : List Nat) (rest : List (Nat × List Nat)) :
    runSlices hash pt total idx ((s, slice) :: rest) =
      match read_data_item hash pt slice with
      | .error e => ([], some (if e.isPanic then e else .ctxRow idx total s e))
      | .ok (item, _) =>
        (item :: (runSlices hash pt total (idx + 1) rest).1,
          (runSlices hash pt total (idx + 1) rest).2) := rfl

theorem streamRows_eq_runSlices (hash : List Nat → List Nat)
    (pt : List Nat → Except DecodeErr (List BundleTag)) (total : Nat)
    (table : List (Nat × List Nat)) :
    ∀ idx body, streamRows hash pt total idx table body =
      runSlices hash pt total idx
        ((table.map Prod.fst).zip (slicesCF (table.map Prod.fst) body)) := by
  induction table with
  | nil => intro idx body; simp [streamRows, runSlices, slicesCF]
  | cons r rs ih =>
    intro idx body
    obtain ⟨s, eid⟩ := r
    simp only [List.map_cons]
    rw [slicesCF_cons, List.zip_cons_cons]
    rw [streamRows_cons, runSlices_cons]
    cases hread : read_data_item hash pt (body.take s) with
    | error e => rfl
    | ok p => rw [ih (idx + 1) (body.drop s)]

/-! ### Claim C8 -/

/-- C8: the bundle stream reads the 32-byte total item count and then
the entire index table before decoding any item body, and then decodes
the items strictly sequentially in table order, each row bounded to
exactly its declared length: on a wire image made of the encoded count,
the encoded table and the item section, the produced items and
terminating error are exactly those of decoding each row from its own
closed-form slice of the item section - row i bounded to exactly its
declared length and starting at the sum of the previous declared
lengths, so the bytes of row i + 1 lie entirely after the declared
extent of row i. -/
theorem c8_table_then_bounded_rows (dbg : Bool) (hash : List Nat → List Nat)
    (pt : List Nat → Except DecodeErr (List BundleTag))
    (table : List (Nat × List Nat)) (body : List Nat)
    (hsz : ∀ r ∈ table, r.1 < 256 ^ 16 ∧ r.2.length = 32)
    (hcount : table.length < 256 ^ 16) :
    ans104_bundle_data_item_stream dbg hash pt
        (encodeU256 table.length ++ ((table.map encodeTableRow).flatten ++ body)) =
      runSlices hash pt table.length 0
        ((table.map Prod.fst).zip (slicesCF (table.map Prod.fst) body)) := by
  unfold ans104_bundle_data_item_stream
  rw [read_u256_encodeU256 dbg table.length _ hcount]
  simp only [withCtx_ok]
  rw [table_roundtrip dbg table body hsz]
  simp only [withCtx_ok]
  exact streamRows_eq_runSlices hash pt table.length table 0 body

/-- Witness for C8 at a concrete one-row bundle. -/
theorem c8_witness :
    ans104_bundle_data_item_stream false hashIdent noTagCodec
        (encodeU256 1 ++ (([((3 : Nat), List.replicate 32 0)].map encodeTableRow).flatten ++
          [1, 2, 3, 4])) =
      runSlices hashIdent noTagCodec 1 0
        (([3] : List Nat).zip (slicesCF [3] [1, 2, 3, 4])) :=
  c8_table_then_bounded_rows false hashIdent noTagCodec [(3, List.replicate 32 0)]
    [1, 2, 3, 4]
    (by
      intro r hr
      simp only [List.mem_singleton] at hr
      subst hr
      exact ⟨by norm_num, by rw [List.length_replicate]⟩)
    (by norm_num)

/-! ### Claim C3 -/

/-- C3 as amended: for a bundle whose last row is truncated by one byte
relative to its declared length (all prior rows decoding cleanly), the
stream yields every prior row and then decodes the last row from the
bytes actually available in its bounded slice: when that short slice
still decodes (the missing byte lay in the trailing payload, which is
read to the end of the bounded stream without any length check), the
last item is yielded successfully with a silently shorter payload and
the stream completes without error; only when the short slice fails to
decode (the missing byte cut a fixed-length field) does the stream fail,
with the error attributed to the last row. -/
theorem c3_truncated_last_row (hash : List Nat → List Nat)
    (pt : List Nat → Except DecodeErr (List BundleTag)) (total idx : Nat)
    (prior : List (Nat × List Nat)) (priorItems : List DataItem)
    (s : Nat) (eid : List Nat) (body : List Nat)
    (hlen : totalSizes prior + s = body.length + 1)
    (hs : 1 ≤ s)
    (hprior : streamRows hash pt total idx prior (body.take (totalSizes prior)) =
      (priorItems, none)) :
    streamRows hash pt total idx (prior ++ [(s, eid)]) body =
      match read_data_item hash pt (body.drop (totalSizes prior)) with
      | .ok (item, _) => (priorItems ++ [item], none)
      | .error e => (priorItems, some (if e.isPanic then e
          else .ctxRow (idx + prior.length) total s e)) := by
  induction prior generalizing idx body priorItems with
  | nil =>
    rw [totalSizes_nil] at hlen hprior ⊢
    rw [List.take_zero] at hprior
    have hpi : priorItems = [] := by
      have : (([], none) : List DataItem × Option DecodeErr) = (priorItems, none) := hprior
      exact (Prod.mk.injEq _ _ _ _ ▸ this).1.symm
    subst hpi
    rw [List.nil_append, List.drop_zero, streamRows_cons]
    have htake : body.take s = body := List.take_of_length_le (by omega)
    rw [htake]
    cases hread : read_data_item hash pt body with
    | ok p =>
      obtain ⟨item, rem⟩ := p
      simp [streamRows]
    | error e =>
      simp
  | cons r prest ih =>
    obtain ⟨s0, e0⟩ := r
    rw [totalSizes_cons] at hlen hprior ⊢
    rw [streamRows_cons] at hprior
    have htt : (body.take (s0 + totalSizes prest)).take s0 = body.take s0 := by
      rw [List.take_take, Nat.min_eq_left (by omega)]
    rw [htt] at hprior
    have hs0le : s0 ≤ body.length := by omega
    cases hread0 : read_data_item hash pt (body.take s0) with
    | error e =>
      rw [hread0] at hprior
      simp at hprior
    | ok p =>
      obtain ⟨it0, rem0⟩ := p
      rw [hread0] at hprior
      simp only [Prod.mk.injEq] at hprior
      obtain ⟨hpi, hterm⟩ := hprior
      have hdt : (body.take (s0 + totalSizes prest)).drop s0 =
          (body.drop s0).take (totalSizes prest) := by
        rw [List.drop_take]
        congr 1
        omega
      rw [hdt] at hpi hterm
      have hnext : streamRows hash pt total (idx + 1) prest
          ((body.drop s0).take (totalSizes prest)) =
          ((streamRows hash pt total (idx + 1) prest
            ((body.drop s0).take (totalSizes prest))).1, none) := by
        rw [← hterm]
      have hlen' : totalSizes prest + s = (body.drop s0).length + 1 := by
        rw [List.length_drop]
        omega
      have hih := ih (idx + 1)
        ((streamRows hash pt total (idx + 1) prest
          ((body.drop s0).take (totalSizes prest))).1) (body.drop s0) hlen' hnext
      rw [List.cons_append, streamRows_cons, hread0, hih]
      have hdd : (body.drop s0).drop (totalSizes prest) =
          body.drop (s0 + totalSizes prest) := by
        rw [List.drop_drop]
      rw [hdd]
      cases hlast : read_data_item hash pt (body.drop (s0 + totalSizes prest)) with
      | ok q =>
        obtain ⟨item, rem⟩ := q
        simp only [← hpi, List.cons_append]
      | error e =>
        simp only [← hpi, List.length_cons]
        have harr : idx + 1 + prest.length = idx + (prest.length + 1) := by omega
        rw [harr]

set_option maxRecDepth 40000 in
/-- Counterexample for C3 as stated: the truncated bundle c3exInput,
whose only row is one byte short of its declared length, decodes
successfully to one item with an empty payload and the stream completes
with no error at all - silent truncation instead of the claimed
truncated-input failure. -/
theorem c3_counterexample :
    ans104_bundle_data_item_stream false hashIdent noTagCodec c3exInput =
      ([c3exItem], none) := by
  rfl

/-- Witness for C3 as amended at a concrete one-row instance. -/
theorem c3_witness :
    streamRows hashIdent noTagCodec 1 0 [(3, [])] [5, 0] =
      ([], some (.ctxRow 0 1 3 (.unsupportedSignatureType 5))) := by
  have h := c3_truncated_last_row hashIdent noTagCodec 1 0 [] [] 3 [] [5, 0]
    (by rfl) (by norm_num) (by rfl)
  have hd : read_data_item hashIdent noTagCodec (List.drop (totalSizes []) [5, 0]) =
      .error (.unsupportedSignatureType 5) := rfl
  rw [hd] at h
  simpa [DecodeErr.isPanic] using h
